import Mathlib

/-!
A verification development for the timeline rendering and interaction engine
of a performance-profiler UI.  The TypeScript source is embedded shallowly:
numbers become rationals, `Math.floor`/`Math.ceil` become `Int.floor`/
`Int.ceil`, and `Math.round` becomes `⌊x + 1/2⌋` (JavaScript rounds halves
toward positive infinity).  Side-effecting draw calls are ignored; only the
geometry they compute is modelled.
-/

namespace PerfStudio

/-- Record `TimelineEvent` from the renderer module. -/
structure TimelineEvent where
  id : String
  label : String
  startTime : ℚ
  endTime : ℚ
  duration : ℚ
  eventTrackId : String
  deriving DecidableEq, Repr

/-- Record `EventTrack` from the renderer module. -/
structure EventTrack where
  id : String
  label : String
  events : List TimelineEvent
  color : String
  deriving DecidableEq, Repr

/-- Record `Viewport` from the renderer module. -/
structure Viewport where
  offsetX : ℚ
  scale : ℚ
  startTime : ℚ
  endTime : ℚ
  deriving DecidableEq, Repr

/-- Layout constant `TRACK_HEIGHT = 40`. -/
def TRACK_HEIGHT : ℚ := 40

/-- Layout constant `TRACK_PADDING = 10`. -/
def TRACK_PADDING : ℚ := 10

/-- Layout constant `TIME_MARKERS_HEIGHT = 30`. -/
def TIME_MARKERS_HEIGHT : ℚ := 30

/-- Layout constant `LEGEND_HEIGHT = 30`. -/
def LEGEND_HEIGHT : ℚ := 30

/-- Zoom clamp constant `MIN_SCALE = 0.1`. -/
def MIN_SCALE : ℚ := 1 / 10

/-- Zoom clamp constant `MAX_SCALE = 100`. -/
def MAX_SCALE : ℚ := 100

/-- JavaScript `Math.round`: round half toward positive infinity. -/
def jsRound (q : ℚ) : ℤ := ⌊q + 1 / 2⌋

/-- Function `TimelineRenderer.timeToPixel`:
`(time - viewport.startTime) * scale - offsetX`. -/
def timeToPixel (v : Viewport) (time : ℚ) : ℚ :=
  (time - v.startTime) * v.scale - v.offsetX

/-- Function `TimelineRenderer.pixelToTime`:
`(pixel + offsetX) / scale + viewport.startTime`. -/
def pixelToTime (v : Viewport) (pixel : ℚ) : ℚ :=
  (pixel + v.offsetX) / v.scale + v.startTime

/-- C1: for every viewport with nonzero scale, `timeToPixel` and
`pixelToTime` are mutual inverses over the rationals: for every time `t`,
`pixelToTime (timeToPixel t) = t`, and for every pixel `p`,
`timeToPixel (pixelToTime p) = p`. -/
theorem timeToPixel_pixelToTime_inverse (v : Viewport) (t p : ℚ)
    (hs : v.scale ≠ 0) :
    pixelToTime v (timeToPixel v t) = t ∧
    timeToPixel v (pixelToTime v p) = p := by
  constructor
  · unfold pixelToTime timeToPixel
    field_simp
  · unfold pixelToTime timeToPixel
    field_simp
    ring

/-- Witness for C1 at the default viewport and concrete inputs. -/
theorem timeToPixel_pixelToTime_inverse_witness :
    pixelToTime ⟨0, 1, 0, 800⟩ (timeToPixel ⟨0, 1, 0, 800⟩ 5) = 5 ∧
    timeToPixel ⟨0, 1, 0, 800⟩ (pixelToTime ⟨0, 1, 0, 800⟩ 7) = 7 :=
  timeToPixel_pixelToTime_inverse ⟨0, 1, 0, 800⟩ 5 7 (by norm_num)

/-- The zoom factor in `handleWheel`: `e.deltaY > 0 ? 0.9 : 1.1`. -/
def wheelZoomFactor (deltaY : ℚ) : ℚ := if 0 < deltaY then 9 / 10 else 11 / 10

/-- New scale computed by `handleWheel`:
`Math.max(MIN_SCALE, Math.min(MAX_SCALE, viewport.scale * zoomFactor))`. -/
def wheelNewScale (v : Viewport) (deltaY : ℚ) : ℚ :=
  max MIN_SCALE (min MAX_SCALE (v.scale * wheelZoomFactor deltaY))

/-- New offset computed by `handleWheel` before the final clamp:
`(timeAtCursor - viewport.startTime) * newScale - cursorOffsetX`,
where `timeAtCursor = pixelToTime(cursorX, viewport)` and
`cursorOffsetX = cursorX`. -/
def wheelNewOffsetX (v : Viewport) (cursorX deltaY : ℚ) : ℚ :=
  (pixelToTime v cursorX - v.startTime) * wheelNewScale v deltaY - cursorX

/-- Handler `handleWheel` from the timeline component: updates `scale` and sets
`offsetX := Math.max(0, newOffsetX)`. -/
def handleWheel (v : Viewport) (cursorX deltaY : ℚ) : Viewport :=
  { v with
    scale := wheelNewScale v deltaY
    offsetX := max 0 (wheelNewOffsetX v cursorX deltaY) }

/-- The new scale is always at least `MIN_SCALE`, hence positive. -/
lemma wheelNewScale_pos (v : Viewport) (d : ℚ) : 0 < wheelNewScale v d :=
  lt_of_lt_of_le (by norm_num [MIN_SCALE]) (le_max_left _ _)

/-- C2 counterexample: the default viewport `{offsetX:0, scale:1}` satisfies
the claim's hypotheses (`MIN_SCALE ≤ scale ≤ MAX_SCALE`, `offsetX ≥ 0`), yet
a zoom-out wheel step (`deltaY = 1`) at cursor pixel 300 changes the time
under the cursor: the unclamped new offset is `-30`, the clamp resets it to
`0`, and `pixelToTime(300)` moves from `300` to `1000/3`. -/
theorem wheel_zoom_cursor_time_cex :
    MIN_SCALE ≤ (⟨0, 1, 0, 800⟩ : Viewport).scale ∧
    (⟨0, 1, 0, 800⟩ : Viewport).scale ≤ MAX_SCALE ∧
    0 ≤ (⟨0, 1, 0, 800⟩ : Viewport).offsetX ∧
    pixelToTime (handleWheel ⟨0, 1, 0, 800⟩ 300 1) 300 ≠
      pixelToTime ⟨0, 1, 0, 800⟩ 300 := by
  refine ⟨by norm_num [MIN_SCALE], by norm_num [MAX_SCALE], by norm_num, ?_⟩
  norm_num [handleWheel, wheelNewOffsetX, wheelNewScale, wheelZoomFactor,
    pixelToTime, MIN_SCALE, MAX_SCALE]

/-- C2 (amended): a wheel-zoom at cursor pixel `x` keeps the time under the
cursor unchanged, `pixelToTime(x, newViewport) = pixelToTime(x, oldViewport)`,
whenever the solved-for offset `wheelNewOffsetX` is nonnegative, i.e. whenever
the final `offsetX ≥ 0` clamp does not engage. -/
theorem wheel_zoom_preserves_cursor_time (v : Viewport) (x d : ℚ)
    (h : 0 ≤ wheelNewOffsetX v x d) :
    pixelToTime (handleWheel v x d) x = pixelToTime v x := by
  have hs : wheelNewScale v d ≠ 0 := ne_of_gt (wheelNewScale_pos v d)
  show (x + max 0 (wheelNewOffsetX v x d)) / wheelNewScale v d + v.startTime
      = pixelToTime v x
  rw [max_eq_right h]
  unfold wheelNewOffsetX
  field_simp

/-- Witness for C2's amended theorem: zooming in (`deltaY = -1`) at cursor
pixel 300 from the default viewport leaves the unclamped offset nonnegative
and preserves the time under the cursor. -/
theorem wheel_zoom_preserves_cursor_time_witness :
    0 ≤ wheelNewOffsetX ⟨0, 1, 0, 800⟩ 300 (-1) ∧
    pixelToTime (handleWheel ⟨0, 1, 0, 800⟩ 300 (-1)) 300 =
      pixelToTime ⟨0, 1, 0, 800⟩ 300 := by
  have h : 0 ≤ wheelNewOffsetX ⟨0, 1, 0, 800⟩ 300 (-1) := by
    norm_num [wheelNewOffsetX, wheelNewScale, wheelZoomFactor, pixelToTime,
      MIN_SCALE, MAX_SCALE]
  exact ⟨h, wheel_zoom_preserves_cursor_time ⟨0, 1, 0, 800⟩ 300 (-1) h⟩

/-- The initial viewport of the timeline component:
`{offsetX: 0, scale: 0.1, startTime: 0, endTime: 800}`. -/
def initialViewport : Viewport := ⟨0, 1 / 10, 0, 800⟩

/-- Viewport restored by `resetView` in the timeline component:
`{offsetX: 0, scale: 1, startTime: 0, endTime: 800}`. -/
def resetViewport : Viewport := ⟨0, 1, 0, 800⟩

/-- The pan step of `handleMouseMove` while dragging:
`offsetX := Math.max(0, prev.offsetX - deltaX)` with
`deltaX = e.clientX - mouseState.lastX`. -/
def panViewport (v : Viewport) (deltaX : ℚ) : Viewport :=
  { v with offsetX := max 0 (v.offsetX - deltaX) }

/-- Viewports reachable from the initial viewport by any finite sequence of
wheel-zoom, drag-pan and reset-view operations. -/
inductive ReachableViewport : Viewport → Prop where
  | init : ReachableViewport initialViewport
  | wheel (v : Viewport) (x d : ℚ) :
      ReachableViewport v → ReachableViewport (handleWheel v x d)
  | pan (v : Viewport) (dx : ℚ) :
      ReachableViewport v → ReachableViewport (panViewport v dx)
  | reset (v : Viewport) :
      ReachableViewport v → ReachableViewport resetViewport

/-- C3: every viewport reachable from the initial viewport by wheel-zoom,
drag-pan and reset-view operations has `offsetX ≥ 0` and
`MIN_SCALE ≤ scale ≤ MAX_SCALE`. -/
theorem reachableViewport_invariant (v : Viewport) (h : ReachableViewport v) :
    0 ≤ v.offsetX ∧ MIN_SCALE ≤ v.scale ∧ v.scale ≤ MAX_SCALE := by
  induction h with
  | init => refine ⟨le_refl 0, ?_, ?_⟩ <;> norm_num [initialViewport, MIN_SCALE, MAX_SCALE]
  | wheel w x d _ _ =>
      refine ⟨le_max_left 0 _, le_max_left _ _, ?_⟩
      exact max_le (by norm_num [MIN_SCALE, MAX_SCALE]) (min_le_left _ _)
  | pan w dx _ ih => exact ⟨le_max_left 0 _, ih.2⟩
  | reset w _ _ =>
      refine ⟨le_refl 0, ?_, ?_⟩ <;> norm_num [resetViewport, MIN_SCALE, MAX_SCALE]

/-- Witness for C3 at the initial viewport. -/
theorem reachableViewport_invariant_witness :
    0 ≤ initialViewport.offsetX ∧ MIN_SCALE ≤ initialViewport.scale ∧
      initialViewport.scale ≤ MAX_SCALE :=
  reachableViewport_invariant initialViewport ReachableViewport.init

/-- The track index `findEventAtPosition` computes from a y coordinate:
`Math.floor((y - TIME_MARKERS_HEIGHT - LEGEND_HEIGHT) / (TRACK_HEIGHT + TRACK_PADDING))`. -/
def hitTrackIndex (y : ℚ) : ℤ :=
  ⌊(y - TIME_MARKERS_HEIGHT - LEGEND_HEIGHT) / (TRACK_HEIGHT + TRACK_PADDING)⌋

/-- The predicate of `findEventAtPosition`'s linear scan:
`time >= event.startTime && time <= event.startTime + event.duration`. -/
def eventContainsTime (e : TimelineEvent) (time : ℚ) : Bool :=
  decide (e.startTime ≤ time) && decide (time ≤ e.startTime + e.duration)

/-- Function `TimelineRenderer.findEventAtPosition`.  The `none` arm of the `match`
is unreachable: the bounds check just before it guarantees the index is
inside the track array. -/
def findEventAtPosition (tracks : List EventTrack) (v : Viewport) (x y : ℚ) :
    Option TimelineEvent :=
  if y ≤ TIME_MARKERS_HEIGHT + LEGEND_HEIGHT then none
  else if hitTrackIndex y < 0 ∨ (tracks.length : ℤ) ≤ hitTrackIndex y then none
  else
    match tracks.get? (hitTrackIndex y).toNat with
    | none => none
    | some track => track.events.find? fun e => eventContainsTime e (pixelToTime v x)

lemma eventContainsTime_true_iff (e : TimelineEvent) (t : ℚ) :
    eventContainsTime e t = true ↔
      e.startTime ≤ t ∧ t ≤ e.startTime + e.duration := by
  simp [eventContainsTime]

lemma eventContainsTime_false_iff (e : TimelineEvent) (t : ℚ) :
    eventContainsTime e t = false ↔
      ¬(e.startTime ≤ t ∧ t ≤ e.startTime + e.duration) := by
  rw [← eventContainsTime_true_iff]
  exact Bool.not_eq_true (eventContainsTime e t) ▸ Iff.rfl

lemma find?_eq_some_of_first {α : Type} (p : α → Bool) (l : List α) :
    ∀ (i : ℕ) (hi : i < l.length),
      p (l.get ⟨i, hi⟩) = true →
      (∀ (j : ℕ) (hj : j < l.length), j < i → p (l.get ⟨j, hj⟩) = false) →
      l.find? p = some (l.get ⟨i, hi⟩) := by
  induction l with
  | nil => intro i hi _ _; exact absurd hi (Nat.not_lt_zero i)
  | cons a t ih =>
    intro i hi hp hmin
    cases i with
    | zero => simpa using List.find?_cons_of_pos t hp
    | succ n =>
      have ha : p a = false := hmin 0 (Nat.succ_pos _) (Nat.succ_pos n)
      rw [List.find?_cons_of_neg t (by simp [ha])]
      exact ih n (Nat.lt_of_succ_lt_succ hi) hp
        (fun j hj hji => hmin (j + 1) (Nat.succ_lt_succ hj) (Nat.succ_lt_succ hji))

/-- C4: `findEventAtPosition` (1) returns `none` for a point in the
grid/legend band `y ≤ TIME_MARKERS_HEIGHT + LEGEND_HEIGHT`; (2,3) returns
`none` (never throwing, by totality) when the computed track index is out of
the track array's range; (4) otherwise returns the first event of that track
in array order whose closed interval `[startTime, startTime + duration]`
contains `pixelToTime x`, and `none` when no event of the track contains it. -/
theorem findEventAtPosition_spec (tracks : List EventTrack) (v : Viewport) (x y : ℚ) :
    (y ≤ TIME_MARKERS_HEIGHT + LEGEND_HEIGHT → findEventAtPosition tracks v x y = none)
    ∧ (hitTrackIndex y < 0 → findEventAtPosition tracks v x y = none)
    ∧ ((tracks.length : ℤ) ≤ hitTrackIndex y → findEventAtPosition tracks v x y = none)
    ∧ (∀ track : EventTrack,
        TIME_MARKERS_HEIGHT + LEGEND_HEIGHT < y →
        tracks.get? (hitTrackIndex y).toNat = some track →
        ((∀ e ∈ track.events,
            ¬(e.startTime ≤ pixelToTime v x ∧
              pixelToTime v x ≤ e.startTime + e.duration)) →
          findEventAtPosition tracks v x y = none)
        ∧ (∀ (i : ℕ) (hi : i < track.events.length),
            (track.events.get ⟨i, hi⟩).startTime ≤ pixelToTime v x →
            pixelToTime v x ≤ (track.events.get ⟨i, hi⟩).startTime +
              (track.events.get ⟨i, hi⟩).duration →
            (∀ (j : ℕ) (hj : j < track.events.length), j < i →
              ¬((track.events.get ⟨j, hj⟩).startTime ≤ pixelToTime v x ∧
                pixelToTime v x ≤ (track.events.get ⟨j, hj⟩).startTime +
                  (track.events.get ⟨j, hj⟩).duration)) →
            findEventAtPosition tracks v x y = some (track.events.get ⟨i, hi⟩))) := by
  refine ⟨?_, ?_, ?_, ?_⟩
  · intro h
    unfold findEventAtPosition
    rw [if_pos h]
  · intro h
    unfold findEventAtPosition
    by_cases h1 : y ≤ TIME_MARKERS_HEIGHT + LEGEND_HEIGHT
    · rw [if_pos h1]
    · rw [if_neg h1, if_pos (Or.inl h)]
  · intro h
    unfold findEventAtPosition
    by_cases h1 : y ≤ TIME_MARKERS_HEIGHT + LEGEND_HEIGHT
    · rw [if_pos h1]
    · rw [if_neg h1, if_pos (Or.inr h)]
  · intro track hy htrack
    have h1 : ¬(y ≤ TIME_MARKERS_HEIGHT + LEGEND_HEIGHT) := not_le.mpr hy
    have hidx0 : 0 ≤ hitTrackIndex y := by
      unfold hitTrackIndex
      rw [Int.floor_nonneg]
      have hden : (0 : ℚ) ≤ TRACK_HEIGHT + TRACK_PADDING := by
        norm_num [TRACK_HEIGHT, TRACK_PADDING]
      have hnum : (0 : ℚ) ≤ y - TIME_MARKERS_HEIGHT - LEGEND_HEIGHT := by linarith
      exact div_nonneg hnum hden
    have hlen : hitTrackIndex y < (tracks.length : ℤ) := by
      by_contra hc
      push_neg at hc
      have hge : tracks.length ≤ (hitTrackIndex y).toNat := by omega
      rw [List.get?_eq_none.mpr hge] at htrack
      exact Option.noConfusion htrack
    have hcond : ¬(hitTrackIndex y < 0 ∨ (tracks.length : ℤ) ≤ hitTrackIndex y) := by
      push_neg
      exact ⟨hidx0, hlen⟩
    have hfind : findEventAtPosition tracks v x y =
        track.events.find? fun e => eventContainsTime e (pixelToTime v x) := by
      unfold findEventAtPosition
      rw [if_neg h1, if_neg hcond, htrack]
    constructor
    · intro hall
      rw [hfind]
      refine List.find?_eq_none.mpr fun e he => ?_
      rw [eventContainsTime_true_iff]
      exact hall e he
    · intro i hi hle hge hmin
      rw [hfind]
      refine find?_eq_some_of_first _ track.events i hi ?_ ?_
      · rw [eventContainsTime_true_iff]
        exact ⟨hle, hge⟩
      · intro j hj hji
        rw [eventContainsTime_false_iff]
        exact hmin j hj hji

/-- The scenario event `{startTime: 100, duration: 20}` of §8 of the spec. -/
def scenarioEvent : TimelineEvent := ⟨"e1", "render-1", 100, 120, 20, "render"⟩

/-- A single `render` track holding the scenario event. -/
def scenarioTrack : EventTrack := ⟨"render", "Render", [scenarioEvent], "#61dafb"⟩

/-- The scenario viewport `{scale: 1, offsetX: 0, startTime: 0}` of §8. -/
def scenarioViewport : Viewport := ⟨0, 1, 0, 800⟩

/-- Witness for C4: clicking pixel `(110, 80)` on the scenario track under
the scenario viewport hits the scenario event. -/
theorem findEventAtPosition_spec_witness :
    findEventAtPosition [scenarioTrack] scenarioViewport 110 80 = some scenarioEvent := by
  have hidx : hitTrackIndex 80 = 0 := by
    unfold hitTrackIndex TIME_MARKERS_HEIGHT LEGEND_HEIGHT TRACK_HEIGHT TRACK_PADDING
    rw [Int.floor_eq_iff]
    norm_num
  have htrack : [scenarioTrack].get? (hitTrackIndex 80).toNat = some scenarioTrack := by
    rw [hidx]
    rfl
  have hy : TIME_MARKERS_HEIGHT + LEGEND_HEIGHT < (80 : ℚ) := by
    norm_num [TIME_MARKERS_HEIGHT, LEGEND_HEIGHT]
  refine ((findEventAtPosition_spec [scenarioTrack] scenarioViewport 110 80).2.2.2
      scenarioTrack hy htrack).2 0 (by norm_num [scenarioTrack]) ?_ ?_ ?_
  · show scenarioEvent.startTime ≤ pixelToTime scenarioViewport 110
    norm_num [scenarioEvent, pixelToTime, scenarioViewport]
  · show pixelToTime scenarioViewport 110 ≤ scenarioEvent.startTime + scenarioEvent.duration
    norm_num [scenarioEvent, pixelToTime, scenarioViewport]
  · intro j hj hji
    exact absurd hji (Nat.not_lt_zero j)

/-- The vertical track origin used by `drawEvents` (and `drawTracks`):
`trackY = TIME_MARKERS_HEIGHT + 36 + trackIndex * (TRACK_HEIGHT + TRACK_PADDING)`. -/
def drawTrackY (i : ℕ) : ℚ :=
  TIME_MARKERS_HEIGHT + 36 + i * (TRACK_HEIGHT + TRACK_PADDING)

/-- C5 counterexample: drawing and hit-testing do not share one band origin.
`drawEvents` places track 0 at `TIME_MARKERS_HEIGHT + 36 = 66`, while the
hit-testing band formula of the claim,
`TIME_MARKERS_HEIGHT + LEGEND_HEIGHT + i * (TRACK_HEIGHT + TRACK_PADDING)`,
starts track 0 at `60`. -/
theorem drawTrackY_layout_cex :
    drawTrackY 0 ≠
      TIME_MARKERS_HEIGHT + LEGEND_HEIGHT + (0 : ℚ) * (TRACK_HEIGHT + TRACK_PADDING) := by
  norm_num [drawTrackY, TIME_MARKERS_HEIGHT, LEGEND_HEIGHT, TRACK_HEIGHT, TRACK_PADDING]

/-- C5 (amended): `drawEvents` uses band origin `TIME_MARKERS_HEIGHT + 36`
while hit-testing uses `TIME_MARKERS_HEIGHT + LEGEND_HEIGHT = 60`; the two
offsets differ, but every pixel inside a drawn event rectangle — which spans
`[drawTrackY i + 4, drawTrackY i + 4 + (TRACK_HEIGHT - 8)]` vertically —
still lies outside the grid/legend band and hit-tests to the same track
index `i` that drew it. -/
theorem drawn_rect_hits_same_track (i : ℕ) (y : ℚ)
    (h1 : drawTrackY i + 4 ≤ y)
    (h2 : y ≤ drawTrackY i + 4 + (TRACK_HEIGHT - 8)) :
    TIME_MARKERS_HEIGHT + LEGEND_HEIGHT < y ∧ hitTrackIndex y = (i : ℤ) := by
  unfold drawTrackY TIME_MARKERS_HEIGHT TRACK_HEIGHT TRACK_PADDING at h1 h2
  have hi0 : (0 : ℚ) ≤ (i : ℚ) := Nat.cast_nonneg i
  have hi50 : (0 : ℚ) ≤ (i : ℚ) * 50 := by positivity
  constructor
  · unfold TIME_MARKERS_HEIGHT LEGEND_HEIGHT
    norm_num at h1 ⊢
    linarith
  · unfold hitTrackIndex TIME_MARKERS_HEIGHT LEGEND_HEIGHT TRACK_HEIGHT TRACK_PADDING
    rw [Int.floor_eq_iff]
    push_cast
    norm_num at h1 h2 ⊢
    constructor
    · rw [le_div_iff₀ (by norm_num : (0:ℚ) < 50)]
      linarith
    · rw [div_lt_iff₀ (by norm_num : (0:ℚ) < 50)]
      linarith

/-- Witness for C5's amended theorem: pixel row `y = 80` lies inside track
0's drawn rectangle and hit-tests to track index 0. -/
theorem drawn_rect_hits_same_track_witness :
    TIME_MARKERS_HEIGHT + LEGEND_HEIGHT < (80 : ℚ) ∧ hitTrackIndex 80 = ((0 : ℕ) : ℤ) :=
  drawn_rect_hits_same_track 0 80
    (by norm_num [drawTrackY, TIME_MARKERS_HEIGHT, TRACK_HEIGHT, TRACK_PADDING])
    (by norm_num [drawTrackY, TIME_MARKERS_HEIGHT, TRACK_HEIGHT, TRACK_PADDING])

/-- From `drawEvents`: `eventX = Math.round(timeToPixel(event.startTime))`. -/
def eventX (v : Viewport) (e : TimelineEvent) : ℤ :=
  jsRound (timeToPixel v e.startTime)

/-- From `drawEvents`:
`eventEndX = Math.round(timeToPixel(event.startTime + event.duration))`. -/
def eventEndX (v : Viewport) (e : TimelineEvent) : ℤ :=
  jsRound (timeToPixel v (e.startTime + e.duration))

/-- From `drawEvents`: `eventWidth = Math.max(1, eventEndX - eventX)`. -/
def eventWidth (v : Viewport) (e : TimelineEvent) : ℤ :=
  max 1 (eventEndX v e - eventX v e)

/-- C6: the drawn rectangle of every event has left edge
`round(timeToPixel(startTime))`, right edge
`round(timeToPixel(startTime + duration))` and width
`max(1, eventEndX - eventX)`; in the §8 scenario (event
`{startTime: 100, duration: 20}` under `{scale: 1, offsetX: 0, startTime: 0}`)
`timeToPixel 100 = 100`, `timeToPixel 120 = 120`, and the rendered width
is `20`. -/
theorem drawEvents_geometry_spec :
    (∀ (v : Viewport) (e : TimelineEvent),
      eventX v e = jsRound (timeToPixel v e.startTime) ∧
      eventEndX v e = jsRound (timeToPixel v (e.startTime + e.duration)) ∧
      eventWidth v e = max 1 (eventEndX v e - eventX v e)) ∧
    timeToPixel scenarioViewport 100 = 100 ∧
    timeToPixel scenarioViewport 120 = 120 ∧
    eventWidth scenarioViewport scenarioEvent = 20 := by
  refine ⟨fun v e => ⟨rfl, rfl, rfl⟩, ?_, ?_, ?_⟩
  · norm_num [timeToPixel, scenarioViewport]
  · norm_num [timeToPixel, scenarioViewport]
  · have hx : eventX scenarioViewport scenarioEvent = 100 := by
      unfold eventX jsRound timeToPixel scenarioViewport scenarioEvent
      rw [Int.floor_eq_iff]
      norm_num
    have hend : eventEndX scenarioViewport scenarioEvent = 120 := by
      unfold eventEndX jsRound timeToPixel scenarioViewport scenarioEvent
      rw [Int.floor_eq_iff]
      norm_num
    rw [eventWidth, hx, hend]
    norm_num

/-- Record `MouseState` from the renderer module. -/
structure MouseState where
  isDragging : Bool
  lastX : ℚ
  isHovering : Bool
  hoverEvent : Option TimelineEvent
  hoverPosition : ℚ × ℚ
  deriving DecidableEq, Repr

/-- Handler `handleMouseDown`: enter dragging and record `lastX = e.clientX`. -/
def handleMouseDown (s : MouseState) (clientX : ℚ) : MouseState :=
  { s with isDragging := true, lastX := clientX }

/-- Handler `handleMouseMove`: while dragging, pan by `clientX - lastX` and record
the new `lastX`; while idle, run hit-testing for the hover state. -/
def handleMouseMove (v : Viewport) (s : MouseState) (tracks : List EventTrack)
    (clientX mouseX mouseY : ℚ) : Viewport × MouseState :=
  if s.isDragging then
    (panViewport v (clientX - s.lastX), { s with lastX := clientX })
  else
    (v, { s with
      isHovering := (findEventAtPosition tracks v mouseX mouseY).isSome
      hoverEvent := findEventAtPosition tracks v mouseX mouseY
      hoverPosition := (mouseX, mouseY) })

/-- The dispatch condition of `handleMouseUp`:
`!mouseState.isDragging || Math.abs(e.clientX - mouseState.lastX) < 5`;
`handleClick` runs exactly when this is `true`. -/
def wasQuickClick (s : MouseState) (clientX : ℚ) : Bool :=
  !s.isDragging || decide (|clientX - s.lastX| < 5)

/-- The idle mouse state the component starts from. -/
def idleMouseState : MouseState := ⟨false, 0, false, none, (0, 0)⟩

/-- C7 counterexample: pointer-down at 0, one dragging move to 100, then
pointer-up at 102.  The cumulative movement since pointer-down is 102 px,
far above the 5 px threshold, yet the dispatch condition is `true` because
each dragging move resets `lastX`, so only the final 2 px segment is
measured. -/
theorem quick_click_threshold_cex :
    wasQuickClick
      (handleMouseMove initialViewport (handleMouseDown idleMouseState 0) [] 100 0 0).2
      102 = true ∧
    (5 : ℚ) ≤ |(102 : ℚ) - 0| := by
  constructor
  · rw [show (handleMouseMove initialViewport (handleMouseDown idleMouseState 0) [] 100 0 0).2 =
        { idleMouseState with isDragging := true, lastX := 100 } from rfl]
    simp only [wasQuickClick]
    norm_num
  · norm_num

/-- C7 (amended): the click-dispatch threshold measures the movement since
the most recent dragging pointer-move (or the pointer-down when no move
intervened), not the total movement since pointer-down: after a down at `x`
and a dragging move to `m`, a pointer-up at `u` dispatches a click exactly
when `|u - m| < 5`, independent of `x`; with no intervening move the
measure is `|u - x| < 5`. -/
theorem quick_click_measures_last_move (v : Viewport) (s : MouseState)
    (tracks : List EventTrack) (x m a b u : ℚ) :
    wasQuickClick (handleMouseMove v (handleMouseDown s x) tracks m a b).2 u =
      decide (|u - m| < 5) ∧
    wasQuickClick (handleMouseDown s x) u = decide (|u - x| < 5) := by
  constructor
  · simp [handleMouseMove, handleMouseDown, wasQuickClick]
  · simp [handleMouseDown, wasQuickClick]

/-- Label formatting of `drawTimeGrid`: `` timeLabel = `${time}ms` ``. -/
def timeLabel (time : ℤ) : String := toString time ++ "ms"

/-- C8 (code bug): the spec — and the source comment directly above the
formatting line, which announces formatting "based on magnitude" — call for
a seconds label above 1000 ms, but the template string always appends `ms`:
the tick at 2000 ms is labelled `"2000ms"`. -/
theorem timeLabel_always_ms :
    (∀ t : ℤ, timeLabel t = toString t ++ "ms") ∧
    timeLabel 2000 = "2000ms" ∧ timeLabel 2000 ≠ "2s" := by
  refine ⟨fun t => rfl, rfl, ?_⟩
  decide

/-- Array `standardIntervals` from `drawTimeGrid`. -/
def standardIntervals : List ℤ :=
  [1, 2, 5, 10, 20, 25, 50, 100, 200, 250, 500, 1000, 2000, 5000, 10000]

/-- The `standardIntervals.reduce(...)` call.  JavaScript `reduce` without an
initial value seeds the accumulator with the first element (here 1) and
folds over the remaining elements. -/
def closestStandardInterval (ideal : ℚ) : ℤ :=
  (standardIntervals.drop 1).foldl
    (fun (prev curr : ℤ) =>
      if |(curr : ℚ) - ideal| < |(prev : ℚ) - ideal| then curr else prev) 1

/-- From `drawTimeGrid`: `visibleStartTime = pixelToTime(0)`. -/
def visibleStartTime (v : Viewport) : ℚ := pixelToTime v 0

/-- From `drawTimeGrid`: `visibleEndTime = pixelToTime(width)`. -/
def visibleEndTime (v : Viewport) (width : ℚ) : ℚ := pixelToTime v width

/-- From `drawTimeGrid`: `visibleTimeRange = visibleEndTime - visibleStartTime`. -/
def visibleTimeRange (v : Viewport) (width : ℚ) : ℚ :=
  visibleEndTime v width - visibleStartTime v

/-- From `drawTimeGrid`: `idealInterval = visibleTimeRange / idealMarkerCount` with
`idealMarkerCount = 8`. -/
def idealInterval (v : Viewport) (width : ℚ) : ℚ := visibleTimeRange v width / 8

/-- The tick interval chosen by `drawTimeGrid`: start from
`Math.ceil(idealInterval)`, raise it to 1 when below 1, and snap to the
closest standard interval when more than 15 markers would result. -/
def timeInterval (v : Viewport) (width : ℚ) : ℤ :=
  let t0 := ⌈idealInterval v width⌉
  let t1 := if t0 < 1 then 1 else t0
  if 15 < visibleTimeRange v width / (t1 : ℚ) then
    closestStandardInterval (idealInterval v width)
  else t1

/-- Index of the first tick:
`startTime = Math.floor(visibleStartTime / timeInterval) * timeInterval`
is `gridStartIndex * timeInterval`. -/
def gridStartIndex (v : Viewport) (width : ℚ) : ℤ :=
  ⌊visibleStartTime v / (timeInterval v width : ℚ)⌋

/-- Index of the last tick:
`endTime = Math.ceil(visibleEndTime / timeInterval) * timeInterval`
is `gridEndIndex * timeInterval`. -/
def gridEndIndex (v : Viewport) (width : ℚ) : ℤ :=
  ⌈visibleEndTime v width / (timeInterval v width : ℚ)⌉

/-- The tick times visited by the marker loop
`for (time = startTime; time <= endTime; time += timeInterval)`. -/
def tickTimes (v : Viewport) (width : ℚ) : List ℤ :=
  let I := timeInterval v width
  let a := gridStartIndex v width
  let b := gridEndIndex v width
  if b < a then []
  else (List.range ((b - a).toNat + 1)).map fun k => (a + (k : ℤ)) * I

/-- The marker-loop body: round each tick time to a pixel column, skip it
when off-canvas (`x < 0 || x > width`) or when `usedPositions.has(x)`,
otherwise draw it and add the column to `usedPositions`. -/
def drawTicks (v : Viewport) (width : ℚ) : List ℤ → List ℤ → List ℤ
  | [], _ => []
  | t :: ts, used =>
    let x := jsRound (timeToPixel v (t : ℚ))
    if x < 0 ∨ width < (x : ℚ) ∨ x ∈ used then drawTicks v width ts used
    else x :: drawTicks v width ts (x :: used)

/-- The pixel columns actually drawn by one `drawTimeGrid` invocation. -/
def drawnTickPositions (v : Viewport) (width : ℚ) : List ℤ :=
  drawTicks v width (tickTimes v width) []

lemma drawTicks_nodup_aux (v : Viewport) (width : ℚ) :
    ∀ (ts used : List ℤ),
      (∀ x ∈ drawTicks v width ts used, x ∉ used) ∧
      (drawTicks v width ts used).Nodup := by
  intro ts
  induction ts with
  | nil => intro used; simp [drawTicks]
  | cons t ts ih =>
    intro used
    have heq : drawTicks v width (t :: ts) used =
        if jsRound (timeToPixel v (t : ℚ)) < 0 ∨
            width < ((jsRound (timeToPixel v (t : ℚ))) : ℚ) ∨
            jsRound (timeToPixel v (t : ℚ)) ∈ used then
          drawTicks v width ts used
        else
          jsRound (timeToPixel v (t : ℚ)) ::
            drawTicks v width ts (jsRound (timeToPixel v (t : ℚ)) :: used) := rfl
    rw [heq]
    split_ifs with h
    · exact ih used
    · push_neg at h
      obtain ⟨-, -, hnotused⟩ := h
      refine ⟨?_, ?_⟩
      · intro y hy
        rcases List.mem_cons.mp hy with hyx | hyr
        · exact hyx ▸ hnotused
        · have := (ih (jsRound (timeToPixel v (t : ℚ)) :: used)).1 y hyr
          exact fun hu => this (List.mem_cons_of_mem _ hu)
      · rw [List.nodup_cons]
        refine ⟨?_, (ih _).2⟩
        intro hx
        exact (ih (jsRound (timeToPixel v (t : ℚ)) :: used)).1 _ hx
          (List.mem_cons_self _ _)

/-- C9: within one invocation of the time-grid pass, no two drawn ticks
occupy the same rounded pixel column: the list of drawn x positions
contains no duplicates, for every viewport and canvas width. -/
theorem drawnTickPositions_nodup (v : Viewport) (width : ℚ) :
    (drawnTickPositions v width).Nodup :=
  (drawTicks_nodup_aux v width (tickTimes v width) []).2

/-- The number of multiples of the chosen tick interval `I` lying in the
closed visible range `[visibleStartTime, visibleEndTime]`: the integers `k`
with `visibleStartTime ≤ k·I ≤ visibleEndTime` are exactly those in
`Finset.Icc ⌈visibleStartTime/I⌉ ⌊visibleEndTime/I⌋` (for `I > 0`, proved in
the C10 theorem below). -/
def numIntervalMultiples (v : Viewport) (width : ℚ) : ℕ :=
  (Finset.Icc ⌈visibleStartTime v / (timeInterval v width : ℚ)⌉
    ⌊visibleEndTime v width / (timeInterval v width : ℚ)⌋).card

/-- C10 counterexample: under the viewport `{offsetX: 0, scale: 1,
startTime: 0}` and canvas width 800 — positive scale and width — the chosen
interval is 100 ms and the visible range `[0, 800]` contains nine interval
multiples (0, 100, …, 800), not at most eight. -/
theorem timeInterval_multiples_cex :
    timeInterval scenarioViewport 800 = 100 ∧
    numIntervalMultiples scenarioViewport 800 = 9 ∧
    ¬(numIntervalMultiples scenarioViewport 800 ≤ 8) := by
  have hvs : visibleStartTime scenarioViewport = 0 := by
    norm_num [visibleStartTime, pixelToTime, scenarioViewport]
  have hve : visibleEndTime scenarioViewport 800 = 800 := by
    norm_num [visibleEndTime, pixelToTime, scenarioViewport]
  have hR : visibleTimeRange scenarioViewport 800 = 800 := by
    rw [visibleTimeRange, hvs, hve]
    norm_num
  have hideal : idealInterval scenarioViewport 800 = 100 := by
    rw [idealInterval, hR]
    norm_num
  have hceil : ⌈idealInterval scenarioViewport 800⌉ = 100 := by
    rw [hideal, show (100 : ℚ) = ((100 : ℤ) : ℚ) from by norm_num, Int.ceil_intCast]
  have hI : timeInterval scenarioViewport 800 = 100 := by
    simp only [timeInterval, hceil, hR]
    norm_num
  have hnum : numIntervalMultiples scenarioViewport 800 = 9 := by
    rw [numIntervalMultiples, hvs, hve, hI]
    rw [show (0 : ℚ) / ((100 : ℤ) : ℚ) = ((0 : ℤ) : ℚ) from by norm_num,
      show (800 : ℚ) / ((100 : ℤ) : ℚ) = ((8 : ℤ) : ℚ) from by norm_num,
      Int.ceil_intCast, Int.floor_intCast, Int.card_Icc]
    rfl
  exact ⟨hI, hnum, by rw [hnum]; norm_num⟩

/-- C10 (amended): for every viewport with positive scale and positive
canvas width, the chosen tick interval is `max(1, ⌈visibleTimeRange/8⌉)`;
consequently `visibleTimeRange / timeInterval ≤ 8 ≤ 15`, so the
snap-to-standard-interval branch is unreachable and the ladder never
influences the interval; the `Finset.Icc` underlying
`numIntervalMultiples` holds exactly the multiples of the interval inside
the visible range, and their number is at most 9 (not 8: nine occur when
the range is an exact multiple of eight intervals). -/
theorem timeInterval_spec (v : Viewport) (width : ℚ)
    (hs : 0 < v.scale) (hw : 0 < width) :
    timeInterval v width = max 1 ⌈idealInterval v width⌉ ∧
    visibleTimeRange v width / (timeInterval v width : ℚ) ≤ 15 ∧
    (∀ k : ℤ,
      k ∈ Finset.Icc ⌈visibleStartTime v / (timeInterval v width : ℚ)⌉
          ⌊visibleEndTime v width / (timeInterval v width : ℚ)⌋ ↔
        visibleStartTime v ≤ (k : ℚ) * (timeInterval v width : ℚ) ∧
        (k : ℚ) * (timeInterval v width : ℚ) ≤ visibleEndTime v width) ∧
    numIntervalMultiples v width ≤ 9 := by
  have hR : visibleTimeRange v width = width / v.scale := by
    unfold visibleTimeRange visibleEndTime visibleStartTime pixelToTime
    field_simp
  have hRpos : 0 < visibleTimeRange v width := hR ▸ div_pos hw hs
  have hIdealPos : 0 < idealInterval v width := by
    rw [idealInterval]
    positivity
  have ht0 : 1 ≤ ⌈idealInterval v width⌉ := Int.ceil_pos.mpr hIdealPos
  have ht0f : ¬(⌈idealInterval v width⌉ < 1) := not_lt.mpr ht0
  have ht0cast : (0 : ℚ) < (⌈idealInterval v width⌉ : ℚ) := by
    exact_mod_cast lt_of_lt_of_le Int.zero_lt_one ht0
  have hR8 : visibleTimeRange v width ≤ 8 * (⌈idealInterval v width⌉ : ℚ) := by
    have hc : idealInterval v width ≤ (⌈idealInterval v width⌉ : ℚ) := Int.le_ceil _
    have h8 : visibleTimeRange v width = 8 * idealInterval v width := by
      rw [idealInterval]
      field_simp
    linarith
  have hdiv8 : visibleTimeRange v width / (⌈idealInterval v width⌉ : ℚ) ≤ 8 := by
    rw [div_le_iff₀ ht0cast]
    linarith
  have hsnap : ¬(15 < visibleTimeRange v width / (⌈idealInterval v width⌉ : ℚ)) := by
    push_neg
    linarith
  have hIeq : timeInterval v width = ⌈idealInterval v width⌉ := by
    simp only [timeInterval]
    rw [if_neg ht0f, if_neg hsnap]
  have hImax : timeInterval v width = max 1 ⌈idealInterval v width⌉ := by
    rw [hIeq, max_eq_right ht0]
  have hIpos : (0 : ℚ) < ((timeInterval v width : ℤ) : ℚ) := by
    rw [hIeq]
    exact ht0cast
  refine ⟨hImax, ?_, ?_, ?_⟩
  · rw [hIeq]
    linarith
  · intro k
    rw [Finset.mem_Icc, Int.ceil_le, Int.le_floor]
    constructor
    · rintro ⟨h1, h2⟩
      exact ⟨(div_le_iff₀ hIpos).mp h1, (le_div_iff₀ hIpos).mp h2⟩
    · rintro ⟨h1, h2⟩
      exact ⟨(div_le_iff₀ hIpos).mpr h1, (le_div_iff₀ hIpos).mpr h2⟩
  · have hfl : (⌊visibleEndTime v width / ((timeInterval v width : ℤ) : ℚ)⌋ : ℚ) ≤
        visibleEndTime v width / ((timeInterval v width : ℤ) : ℚ) := Int.floor_le _
    have hcl : visibleStartTime v / ((timeInterval v width : ℤ) : ℚ) ≤
        (⌈visibleStartTime v / ((timeInterval v width : ℤ) : ℚ)⌉ : ℚ) := Int.le_ceil _
    have hdiff : visibleEndTime v width / ((timeInterval v width : ℤ) : ℚ) -
        visibleStartTime v / ((timeInterval v width : ℤ) : ℚ) ≤ 8 := by
      rw [div_sub_div_same]
      rw [show visibleEndTime v width - visibleStartTime v = visibleTimeRange v width from rfl]
      rw [div_le_iff₀ hIpos, hIeq]
      linarith
    have hba : ⌊visibleEndTime v width / ((timeInterval v width : ℤ) : ℚ)⌋ -
        ⌈visibleStartTime v / ((timeInterval v width : ℤ) : ℚ)⌉ ≤ 8 := by
      have : ((⌊visibleEndTime v width / ((timeInterval v width : ℤ) : ℚ)⌋ -
          ⌈visibleStartTime v / ((timeInterval v width : ℤ) : ℚ)⌉ : ℤ) : ℚ) ≤ 8 := by
        push_cast
        linarith
      exact_mod_cast this
    rw [numIntervalMultiples, Int.card_Icc]
    omega

/-- Witness for C10's amended theorem at the positive-scale scenario
viewport and width 800. -/
theorem timeInterval_spec_witness :
    timeInterval scenarioViewport 800 = max 1 ⌈idealInterval scenarioViewport 800⌉ ∧
    numIntervalMultiples scenarioViewport 800 ≤ 9 := by
  have h := timeInterval_spec scenarioViewport 800
    (by norm_num [scenarioViewport]) (by norm_num)
  exact ⟨h.1, h.2.2.2⟩

end PerfStudio
